import Mathlib

/-
Verification of the Sale lifecycle and returns engine of the stak
repository (stoqlib sale domain): stock reservation/decrement
reconciliation between a SaleItem and a linked work-order item, the sale
status state machine, partial/total return accounting, and the
discount proration algorithm with rounding-remainder correction.

The sale domain implementation module itself is not among the provided
sources (only its test suite, stoqlib/domain/test/test_sale.py, is), so
the operations below are modelled from the specification and checked
against the concrete scenarios of that test suite.
-/

namespace Stoqlib

/-- Modelled from the spec: the inventory-ledger view of a storable for one
branch (the external inventory collaborator of section 6; the storable
implementation is not among the provided sources). The balance is the
quantity returned by get_balance_for_branch. -/
structure Storable where
  balance : ℚ
  deriving DecidableEq

/-- Modelled from the spec: decrease_stock of the inventory ledger. -/
def Storable.decrease_stock (q : ℚ) (st : Storable) : Storable :=
  ⟨st.balance - q⟩

/-- Modelled from the spec: increase_stock of the inventory ledger. -/
def Storable.increase_stock (q : ℚ) (st : Storable) : Storable :=
  ⟨st.balance + q⟩

/-- Modelled from the spec: the external fulfillment (work-order) item
linked to a SaleItem, mirroring quantity_decreased (section 4.2; the
work-order implementation is not among the provided sources). -/
structure WorkOrderItem where
  quantity : ℚ
  quantity_decreased : ℚ
  deriving DecidableEq

/-- Modelled from the spec: a line in a sale (section 3). It tracks the
ordered quantity, unit price and pre-discount base price, the quantity
already reflected in stock, the quantity already returned, and an optional
link to an external work-order item (the SaleItem implementation is not
among the provided sources). -/
structure SaleItem where
  quantity : ℚ
  base_price : ℚ := 0
  price : ℚ := 0
  quantity_decreased : ℚ := 0
  returned_quantity : ℚ := 0
  wo_item : Option WorkOrderItem := none
  deriving DecidableEq

/-- Modelled from the spec: the baseline of already applied stock movement
for a SaleItem, the maximum of its own counter and the counter of the
linked work-order item when one exists (section 4.2). -/
def SaleItem.already_decreased (it : SaleItem) : ℚ :=
  match it.wo_item with
  | none => it.quantity_decreased
  | some wo => max it.quantity_decreased wo.quantity_decreased

/-- Modelled from the spec: SaleItem.sell (section 4.2). The delta applied
to the ledger is the ordered quantity minus the already applied baseline,
and nothing is applied when that delta is not positive; afterwards both
counters are set to the ordered quantity. -/
def SaleItem.sell (it : SaleItem) (st : Storable) : SaleItem × Storable :=
  let to_decrease := it.quantity - it.already_decreased
  let st2 := if 0 < to_decrease then st.decrease_stock to_decrease else st
  ({ it with
      quantity_decreased := it.quantity,
      wo_item := it.wo_item.map fun wo =>
        { wo with quantity_decreased := it.quantity } },
    st2)

/-- Modelled from the spec: SaleItem.cancel (section 4.2). Exactly the
already applied baseline is restored to the ledger, never the nominal
quantity; afterwards both counters are set to zero. -/
def SaleItem.cancel (it : SaleItem) (st : Storable) : SaleItem × Storable :=
  let to_increase := it.already_decreased
  let st2 := if 0 < to_increase then st.increase_stock to_increase else st
  ({ it with
      quantity_decreased := 0,
      wo_item := it.wo_item.map fun wo => { wo with quantity_decreased := 0 } },
    st2)

/-- Modelled from the spec: domain error kinds (section 7). -/
inductive DomainError
  | sellError
  | invalidTransition
  | clientIneligible
  | validationError
  deriving DecidableEq

/-- Decidable equality for the results of fallible domain operations, so
that concrete runs of the model can be checked by evaluation. -/
instance {ε α : Type} [DecidableEq ε] [DecidableEq α] :
    DecidableEq (Except ε α) := fun x y =>
  match x, y with
  | .ok a, .ok b =>
    if h : a = b then .isTrue (by rw [h]) else .isFalse (by simp [h])
  | .error a, .error b =>
    if h : a = b then .isTrue (by rw [h]) else .isFalse (by simp [h])
  | .ok _, .error _ => .isFalse (by simp)
  | .error _, .ok _ => .isFalse (by simp)

/-- Modelled from the spec: SaleItem.reserve. Reserving r units decrements
the ledger by r and raises the decreased counter by r; it is a validation
error to reserve a non-positive amount or more than the quantity still not
decreased (section 3 invariant: quantity_decreased stays within the
ordered quantity). -/
def SaleItem.reserve (r : ℚ) (it : SaleItem) (st : Storable) :
    Except DomainError (SaleItem × Storable) :=
  if r ≤ 0 ∨ it.quantity - it.quantity_decreased < r then
    .error .validationError
  else
    .ok ({ it with quantity_decreased := it.quantity_decreased + r },
      st.decrease_stock r)

/-- Modelled from the spec: Sale.remove_item restores any stock already
reserved for the removed item, which is the cancel path of section 4.2
applied to the item before it is dropped from the sale. -/
def SaleItem.remove_item (it : SaleItem) (st : Storable) : Storable :=
  (SaleItem.cancel it st).2

/-- Modelled from the spec: the sale status enumeration (section 4.1). -/
inductive SaleStatus
  | initial
  | quote
  | ordered
  | confirmed
  | cancelled
  | returned
  | renegotiated
  deriving DecidableEq

/-- Modelled from the spec: a fiscal-book tax ledger record with ICMS, ISS
and IPI components, keyed to the payment group of one sale (sections 6 and
8; the fiscal subsystem is not among the provided sources). -/
structure FiscalBookEntry where
  icms_value : ℚ
  iss_value : ℚ
  ipi_value : ℚ
  deriving DecidableEq

/-- Modelled from the spec: scaling of a fiscal-book entry by a fraction,
used for the proportional reversal of section 4.4. -/
def FiscalBookEntry.scale (f : ℚ) (e : FiscalBookEntry) : FiscalBookEntry :=
  ⟨f * e.icms_value, f * e.iss_value, f * e.ipi_value⟩

/-- Modelled from the spec: the Sale aggregate (section 3; the Sale
implementation is not among the provided sources). It owns the line items,
one ledger storable per line item (same index), a status, the client
standing, the payment settlement flags of its payment group, the paid
flag, the fiscal entry written at confirmation and the reversal entries
written by returns. -/
structure Sale where
  status : SaleStatus
  items : List SaleItem
  storables : List Storable
  client_ok : Bool := true
  payments : List Bool := []
  paid : Bool := false
  fiscal_entry : Option FiscalBookEntry := none
  reversal_entries : List FiscalBookEntry := []
  deriving DecidableEq

/-- Modelled from the spec: selling every line item against its storable
(the confirm path of sections 4.1 and 4.2). -/
def Sale.sellItems : List SaleItem → List Storable → List SaleItem × List Storable
  | it :: its, st :: sts =>
    let p := SaleItem.sell it st
    let r := Sale.sellItems its sts
    (p.1 :: r.1, p.2 :: r.2)
  | its, sts => (its, sts)

/-- Modelled from the spec: cancelling every line item against its
storable (the cancel path of sections 4.1 and 4.2). -/
def Sale.cancelItems : List SaleItem → List Storable → List SaleItem × List Storable
  | it :: its, st :: sts =>
    let p := SaleItem.cancel it st
    let r := Sale.cancelItems its sts
    (p.1 :: r.1, p.2 :: r.2)
  | its, sts => (its, sts)

/-- Modelled from the spec: the guard of order (section 4.1): at least one
line item, status INITIAL or QUOTE, and a client in good standing. -/
def Sale.can_order (s : Sale) : Bool :=
  !s.items.isEmpty
    && (decide (s.status = SaleStatus.initial)
      || decide (s.status = SaleStatus.quote))
    && s.client_ok

/-- Modelled from the spec: Sale.order (section 4.1). It fails with a
domain error when the sale has no line items, when the status is not
INITIAL or QUOTE, or when the client is not in good standing; on success
the status becomes ORDERED. -/
def Sale.order (s : Sale) : Except DomainError Sale :=
  if s.items.isEmpty then .error .sellError
  else if ¬(s.status = SaleStatus.initial ∨ s.status = SaleStatus.quote) then
    .error .invalidTransition
  else if ¬s.client_ok then .error .sellError
  else .ok { s with status := SaleStatus.ordered }

/-- Modelled from the spec: Sale.confirm (section 4.1). It requires line
items, an ORDERED or QUOTE status and a client in good standing; on
success it decrements stock for each item not yet decremented through the
reconciliation rule of section 4.2, writes the fiscal-book entry supplied
by the external fiscal subsystem, and the status becomes CONFIRMED. -/
def Sale.confirm (taxes : FiscalBookEntry) (s : Sale) : Except DomainError Sale :=
  if s.items.isEmpty then .error .sellError
  else if ¬(s.status = SaleStatus.ordered ∨ s.status = SaleStatus.quote) then
    .error .invalidTransition
  else if ¬s.client_ok then .error .clientIneligible
  else
    let p := Sale.sellItems s.items s.storables
    .ok { s with
      status := SaleStatus.confirmed,
      items := p.1,
      storables := p.2,
      fiscal_entry := some taxes }

/-- Modelled from the spec: the guard of return (section 4.1): returns are
allowed only while the sale is CONFIRMED. -/
def Sale.can_return (s : Sale) : Bool :=
  decide (s.status = SaleStatus.confirmed)

/-- Modelled from the spec: the total ordered quantity of a sale, the
denominator of the proportional reversal of section 4.4. -/
def Sale.total_quantity (s : Sale) : ℚ :=
  (s.items.map SaleItem.quantity).sum

/-- Modelled from the spec: finalizing a ReturnedSale against its sale
(sections 4.1 and 4.4), with ks the quantity returned per line item. It
requires a CONFIRMED sale and per-item quantities between zero and the
quantity not yet returned. It restores the returned quantity of each item
to its storable, reverses the fiscal-book entry proportionally to the
fraction of the total quantity being returned, and promotes the sale to
RETURNED exactly when every item is now fully returned, keeping it
CONFIRMED otherwise. -/
def Sale.return_ (ks : List ℚ) (s : Sale) : Except DomainError Sale :=
  if ¬(s.status = SaleStatus.confirmed) then .error .invalidTransition
  else if ¬(ks.length = s.items.length) then .error .validationError
  else if ¬((ks.zip s.items).all fun p =>
      decide (0 ≤ p.1 ∧ p.1 ≤ p.2.quantity - p.2.returned_quantity)) then
    .error .validationError
  else
    let items2 := List.zipWith
      (fun k it => { it with returned_quantity := it.returned_quantity + k })
      ks s.items
    let storables2 := List.zipWith
      (fun k st => Storable.increase_stock k st) ks s.storables
    let fraction := ks.sum / s.total_quantity
    let reversal := (s.fiscal_entry.getD ⟨0, 0, 0⟩).scale fraction
    let fully := items2.all fun it =>
      decide (it.returned_quantity = it.quantity)
    .ok { s with
      status := if fully then SaleStatus.returned else SaleStatus.confirmed,
      items := items2,
      storables := storables2,
      reversal_entries := s.reversal_entries ++ [reversal] }

/-- Modelled from the spec: the sum of the ICMS components of the reversal
entries of a sale. -/
def Sale.reversed_icms (s : Sale) : ℚ :=
  (s.reversal_entries.map FiscalBookEntry.icms_value).sum

/-- Modelled from the spec: the sum of the ISS components of the reversal
entries of a sale. -/
def Sale.reversed_iss (s : Sale) : ℚ :=
  (s.reversal_entries.map FiscalBookEntry.iss_value).sum

/-- Modelled from the spec: the sum of the IPI components of the reversal
entries of a sale. -/
def Sale.reversed_ipi (s : Sale) : ℚ :=
  (s.reversal_entries.map FiscalBookEntry.ipi_value).sum

/-- Modelled from the spec: the net ICMS position of the fiscal ledger of
a sale, its fiscal entry minus all reversal entries. -/
def Sale.net_icms (s : Sale) : ℚ :=
  (s.fiscal_entry.getD ⟨0, 0, 0⟩).icms_value - s.reversed_icms

/-- Modelled from the spec: the net ISS position of the fiscal ledger of a
sale. -/
def Sale.net_iss (s : Sale) : ℚ :=
  (s.fiscal_entry.getD ⟨0, 0, 0⟩).iss_value - s.reversed_iss

/-- Modelled from the spec: the net IPI position of the fiscal ledger of a
sale. -/
def Sale.net_ipi (s : Sale) : ℚ :=
  (s.fiscal_entry.getD ⟨0, 0, 0⟩).ipi_value - s.reversed_ipi

/-- Modelled from the spec: the guard of cancel (section 4.1). The default
guard disallows cancelling a CONFIRMED sale unless an administrative
override or an external-system override is present, and disallows
cancelling entirely once the sale is RETURNED (or already CANCELLED);
otherwise the default behavior is permissive. -/
def Sale.can_cancel (s : Sale) (is_admin is_external : Bool) : Bool :=
  match s.status with
  | SaleStatus.returned => false
  | SaleStatus.cancelled => false
  | SaleStatus.confirmed => is_admin || is_external
  | _ => true

/-- Modelled from the spec: Sale.cancel (section 4.1). With the force flag
the guard is bypassed entirely; otherwise the guard of can_cancel decides.
On success each item has its already-decremented stock restored through
the cancel path of section 4.2 and the status becomes CANCELLED. -/
def Sale.cancel (is_admin is_external force : Bool) (s : Sale) :
    Except DomainError Sale :=
  if force || s.can_cancel is_admin is_external then
    let p := Sale.cancelItems s.items s.storables
    .ok { s with
      status := SaleStatus.cancelled,
      items := p.1,
      storables := p.2 }
  else .error .invalidTransition

/-- Modelled from the spec: the promotion to the paid state (section 4.1),
triggered once the sale is CONFIRMED and all payments of its payment group
are settled; the status itself is not changed. -/
def Sale.set_paid (s : Sale) : Sale :=
  if s.status = SaleStatus.confirmed ∧ s.payments.all id = true then
    { s with paid := true }
  else s

/-- Modelled from the spec: Sale.set_not_paid (section 4.1) reverses the
paid flag without changing the status. -/
def Sale.set_not_paid (s : Sale) : Sale :=
  { s with paid := false }

/-- Modelled from the spec: rounding of a rational to the nearest integer
with ties to the even neighbour, the quantization rule of the decimal
currency type used by the discount allocator (section 4.3; the currency
helper is not among the provided sources). -/
def roundHalfEven (x : ℚ) : ℤ :=
  if x - ⌊x⌋ < 1 / 2 then ⌊x⌋
  else if 1 / 2 < x - ⌊x⌋ then ⌊x⌋ + 1
  else if 2 ∣ ⌊x⌋ then ⌊x⌋ else ⌊x⌋ + 1

/-- Modelled from the spec: quantization of a currency amount to two
decimal places (section 4.3, step 2). -/
def quantize (x : ℚ) : ℚ :=
  (roundHalfEven (100 * x) : ℚ) / 100

/-- Modelled from the spec: SaleItem.set_discount (section 4.3, steps 1
and 2). The new price is the base price scaled by the discount percentage
and quantized to currency precision, clamped at the minimum currency unit
so the price invariant of section 3 is preserved. -/
def SaleItem.set_discount (pct : ℚ) (it : SaleItem) : SaleItem :=
  { it with price := max (1 / 100) (quantize (it.base_price * (1 - pct / 100))) }

/-- Modelled from the spec: the sale subtotal over current item prices. -/
def itemsSubtotal (items : List SaleItem) : ℚ :=
  (items.map fun it => it.price * it.quantity).sum

/-- Modelled from the spec: the sale subtotal over pre-discount base
prices. -/
def itemsBaseSubtotal (items : List SaleItem) : ℚ :=
  (items.map fun it => it.base_price * it.quantity).sum

/-- Modelled from the spec: application of the whole rounding residual to
the last item processed (section 4.3, step 4), converted to a per-unit
price delta as in step 1 so the sale-level total absorbs the entire
residual, and clamped at the minimum currency unit. -/
def applyDiffToLast (diff : ℚ) : List SaleItem → List SaleItem
  | [] => []
  | [it] => [{ it with price := max (1 / 100) (it.price - diff / it.quantity) }]
  | it :: rest => it :: applyDiffToLast diff rest

/-- Modelled from the spec: the subtotal requested by a sale-level
discount of pct percent, the base subtotal minus the quantized sale-level
delta (section 4.3, step 3). -/
def discountTarget (pct : ℚ) (items : List SaleItem) : ℚ :=
  itemsBaseSubtotal items - quantize (itemsBaseSubtotal items * pct / 100)

/-- Modelled from the spec: the cumulative rounding error of the per-item
discounts against the requested sale-level delta (section 4.3, step 3). -/
def discountDiff (pct : ℚ) (items : List SaleItem) : ℚ :=
  itemsSubtotal (items.map (SaleItem.set_discount pct)) - discountTarget pct items

/-- Modelled from the spec: Sale.set_items_discount (section 4.3). Every
item gets its nominal quantized share of the percentage discount, and the
whole rounding residual is then applied to the last item processed so the
sale-level total matches the request, subject to the minimum currency unit
floor. -/
def set_items_discount (pct : ℚ) (items : List SaleItem) : List SaleItem :=
  let items1 := items.map (SaleItem.set_discount pct)
  let diff := discountDiff pct items
  if diff = 0 then items1 else applyDiffToLast diff items1

/-- An already confirmed sale with no pending line items, used as a
concrete input. -/
def exConfirmedSale : Sale :=
  { status := SaleStatus.confirmed, items := [], storables := [] }

/-- An already returned sale, used as a concrete input. -/
def exReturnedSale : Sale :=
  { status := SaleStatus.returned, items := [], storables := [] }

/-- A sale without line items in the bootstrap status, used as a concrete
input. -/
def exEmptySale : Sale :=
  { status := SaleStatus.initial, items := [], storables := [] }

/-- A quoted sale with one line item, used as a concrete input. -/
def exQuoteSale : Sale :=
  { status := SaleStatus.quote, items := [{ quantity := 5 }],
    storables := [⟨10⟩] }

/-- A confirmed sale whose two payments are settled, used as a concrete
input. -/
def exSettledSale : Sale :=
  { status := SaleStatus.confirmed, items := [], storables := [],
    payments := [true, true] }

/-- An ordered single-item sale before confirmation, used as a concrete
input. -/
def s0c3 : Sale :=
  { status := SaleStatus.ordered, items := [{ quantity := 1 }],
    storables := [⟨10⟩] }

/-- The sale of s0c3 after confirmation, used as a concrete input. -/
def s1c3 : Sale :=
  { status := SaleStatus.confirmed,
    items := [{ quantity := 1, quantity_decreased := 1 }],
    storables := [⟨10 - 1⟩], fiscal_entry := some ⟨6, 3, 1⟩ }

/-- The sale of s0c3 after confirmation followed by a total return, used
as a concrete input. -/
def s2c3 : Sale :=
  { status := SaleStatus.returned,
    items := [{ quantity := 1, quantity_decreased := 1,
                returned_quantity := 0 + 1 }],
    storables := [⟨10 - 1 + 1⟩], fiscal_entry := some ⟨6, 3, 1⟩,
    reversal_entries := [⟨1 * 6, 1 * 3, 1 * 1⟩] }

/-- The single-item sale of quantity 2 after confirmation, used as a
concrete input. -/
def s1c4 : Sale :=
  { status := SaleStatus.confirmed,
    items := [{ quantity := 2, quantity_decreased := 2 }],
    storables := [⟨8⟩], fiscal_entry := some ⟨6, 3, 1⟩ }

/-- The same sale after returning 1 of its 2 units, used as a concrete
input. -/
def s2c4 : Sale :=
  { status := SaleStatus.confirmed,
    items := [{ quantity := 2, quantity_decreased := 2,
                returned_quantity := 0 + 1 }],
    storables := [⟨10 - 2 + 1⟩], fiscal_entry := some ⟨6, 3, 1⟩,
    reversal_entries :=
      [⟨1 / 2 * 6, 1 / 2 * 3, 1 / 2 * 1⟩] }

/-- The same sale after returning the remaining unit, used as a concrete
input. -/
def s3c4 : Sale :=
  { status := SaleStatus.returned,
    items := [{ quantity := 2, quantity_decreased := 2,
                returned_quantity := 0 + 1 + 1 }],
    storables := [⟨10 - 2 + 1 + 1⟩], fiscal_entry := some ⟨6, 3, 1⟩,
    reversal_entries :=
      [⟨1 / 2 * 6, 1 / 2 * 3, 1 / 2 * 1⟩, ⟨1 / 2 * 6, 1 / 2 * 3, 1 / 2 * 1⟩] }

/-- The first line item of the rounding example of the spec: quantity 10
at a base price of 10 currency units. -/
def exDiscA : SaleItem := { quantity := 10, base_price := 10, price := 10 }

/-- The second line item of the rounding example of the spec: one unit at
a base price of 0.99, bringing the subtotal to 100.99. -/
def exDiscB : SaleItem :=
  { quantity := 1, base_price := 99 / 100, price := 99 / 100 }

/-- The discount percentage that removes exactly 0.99 from the 100.99
subtotal, as in the negative-residual test of the suite. -/
def exPct : ℚ := 980295079 / 1000000000

/-- The small second item of the clamping example: one unit at a base
price of 0.02, one cent above the price floor. -/
def exDiscC : SaleItem :=
  { quantity := 1, base_price := 2 / 100, price := 2 / 100 }

/-- The discount percentage that nominally removes 0.02 from the 100.02
subtotal, as in the positive-residual test of the suite. -/
def exPct2 : ℚ := 19996001 / 1000000000


theorem sub_ite_decrease (b t : ℚ) :
    b - (if 0 < t then b - t else b) = max 0 t := by
  split_ifs with h
  · rw [max_eq_right h.le]; ring
  · rw [max_eq_left (not_lt.mp h)]; ring

/-- C1: for a SaleItem of ordered quantity q, selling removes from the
ledger exactly q minus the maximum of the two decreased counters, clamped
at zero (the counter of a missing work-order item counting as zero), and
afterwards both counters equal q. -/
theorem sell_applies_clamped_delta (q d1 d2 qw b : ℚ)
    (hd1 : 0 ≤ d1) (hd2 : 0 ≤ d2) :
    (b - (SaleItem.sell
        { quantity := q, quantity_decreased := d1,
          wo_item := some ⟨qw, d2⟩ } ⟨b⟩).2.balance
        = max 0 (q - max d1 d2)
      ∧ (SaleItem.sell
        { quantity := q, quantity_decreased := d1,
          wo_item := some ⟨qw, d2⟩ } ⟨b⟩).1.quantity_decreased = q
      ∧ ((SaleItem.sell
        { quantity := q, quantity_decreased := d1,
          wo_item := some ⟨qw, d2⟩ } ⟨b⟩).1.wo_item.map
            WorkOrderItem.quantity_decreased) = some q)
    ∧ (b - (SaleItem.sell
        { quantity := q, quantity_decreased := d1 } ⟨b⟩).2.balance
        = max 0 (q - max d1 0)
      ∧ (SaleItem.sell
        { quantity := q, quantity_decreased := d1 } ⟨b⟩).1.quantity_decreased
        = q) := by
  refine ⟨⟨?_, rfl, rfl⟩, ⟨?_, rfl⟩⟩
  · simpa [SaleItem.sell, SaleItem.already_decreased, Storable.decrease_stock,
        apply_ite Storable.balance]
      using sub_ite_decrease b (q - max d1 d2)
  · rw [max_eq_left hd1]
    simpa [SaleItem.sell, SaleItem.already_decreased, Storable.decrease_stock,
        apply_ite Storable.balance]
      using sub_ite_decrease b (q - d1)

theorem sell_applies_clamped_delta_witness :
    0 ≤ (8 : ℚ) ∧ 0 ≤ (5 : ℚ)
    ∧ ((975 : ℚ) - (SaleItem.sell
        { quantity := 10, quantity_decreased := 8,
          wo_item := some ⟨10, 5⟩ } ⟨975⟩).2.balance
      = max 0 (10 - max 8 5)) :=
  ⟨by norm_num, by norm_num,
    (sell_applies_clamped_delta 10 8 5 10 975 (by norm_num) (by norm_num)).1.1⟩

/-- C2: for a SaleItem, cancelling restores to the ledger exactly the
maximum of the two decreased counters, independent of the nominal ordered
quantity, and afterwards both counters equal zero. -/
theorem cancel_restores_max (q d1 d2 qw b : ℚ)
    (hd1 : 0 ≤ d1) (hd2 : 0 ≤ d2) :
    ((SaleItem.cancel
        { quantity := q, quantity_decreased := d1,
          wo_item := some ⟨qw, d2⟩ } ⟨b⟩).2.balance - b
        = max d1 d2
      ∧ (SaleItem.cancel
        { quantity := q, quantity_decreased := d1,
          wo_item := some ⟨qw, d2⟩ } ⟨b⟩).1.quantity_decreased = 0
      ∧ ((SaleItem.cancel
        { quantity := q, quantity_decreased := d1,
          wo_item := some ⟨qw, d2⟩ } ⟨b⟩).1.wo_item.map
            WorkOrderItem.quantity_decreased) = some 0)
    ∧ ((SaleItem.cancel
        { quantity := q, quantity_decreased := d1 } ⟨b⟩).2.balance - b
        = d1
      ∧ (SaleItem.cancel
        { quantity := q, quantity_decreased := d1 } ⟨b⟩).1.quantity_decreased
        = 0) := by
  have key : ∀ t : ℚ, 0 ≤ t →
      (if 0 < t then Storable.increase_stock t ⟨b⟩ else ⟨b⟩).balance - b = t := by
    intro t ht
    split_ifs with h
    · simp [Storable.increase_stock]
    · have : t = 0 := le_antisymm (not_lt.mp h) ht
      simp [this]
  refine ⟨⟨?_, rfl, rfl⟩, ⟨?_, rfl⟩⟩
  · simpa [SaleItem.cancel, SaleItem.already_decreased]
      using key (max d1 d2) (le_max_of_le_left hd1)
  · simpa [SaleItem.cancel, SaleItem.already_decreased] using key d1 hd1

theorem cancel_restores_max_witness :
    0 ≤ (2 : ℚ) ∧ 0 ≤ (5 : ℚ)
    ∧ ((SaleItem.cancel
        { quantity := 10, quantity_decreased := 2,
          wo_item := some ⟨10, 5⟩ } ⟨25⟩).2.balance - 25
      = max 2 5) :=
  ⟨by norm_num, by norm_num,
    (cancel_restores_max 10 2 5 10 25 (by norm_num) (by norm_num)).1.1⟩

/-- C10: reserving r units of a SaleItem of quantity q with a fresh
decreased counter removes exactly r from the ledger, and removing the item
afterwards restores exactly those r units, so the balance returns to its
original value. -/
theorem reserve_then_remove_item_restores (q r b : ℚ)
    (h1 : 0 < r) (h2 : r ≤ q) :
    SaleItem.reserve r { quantity := q } ⟨b⟩
      = .ok ({ quantity := q, quantity_decreased := r }, ⟨b - r⟩)
    ∧ SaleItem.remove_item { quantity := q, quantity_decreased := r } ⟨b - r⟩
      = ⟨b⟩ := by
  constructor
  · rw [SaleItem.reserve, if_neg]
    · simp [Storable.decrease_stock]
    · push_neg
      exact ⟨h1, by simpa using h2⟩
  · rw [SaleItem.remove_item, SaleItem.cancel]
    simp only [SaleItem.already_decreased, if_pos h1]
    simp [Storable.increase_stock]

theorem reserve_then_remove_item_restores_witness :
    0 < (4 : ℚ) ∧ (4 : ℚ) ≤ 5
    ∧ SaleItem.remove_item { quantity := 5, quantity_decreased := 4 }
        ⟨10 - 4⟩ = ⟨10⟩ :=
  ⟨by norm_num, by norm_num,
    (reserve_then_remove_item_restores 5 4 10 (by norm_num) (by norm_num)).2⟩

/-- C7: cancel is rejected on a CONFIRMED sale when neither an
administrative override, an external-system override nor the force flag is
present; it is accepted with the force flag regardless of the guard, and
for an administrative user on a CONFIRMED sale; and without force it is
always rejected once the status is RETURNED, whatever the overrides. -/
theorem cancel_guard_behavior :
    (∀ s : Sale, s.status = SaleStatus.confirmed →
      Sale.cancel false false false s = .error DomainError.invalidTransition)
    ∧ (∀ (s : Sale) (a e : Bool), ∃ s2, Sale.cancel a e true s = .ok s2)
    ∧ (∀ (s : Sale) (e : Bool), s.status = SaleStatus.confirmed →
      ∃ s2, Sale.cancel true e false s = .ok s2)
    ∧ (∀ (s : Sale) (a e : Bool), s.status = SaleStatus.returned →
      Sale.cancel a e false s = .error DomainError.invalidTransition) := by
  refine ⟨?_, ?_, ?_, ?_⟩
  · intro s hs
    simp [Sale.cancel, Sale.can_cancel, hs]
  · intro s a e
    exact ⟨_, by rw [Sale.cancel, if_pos (by simp)]⟩
  · intro s e hs
    exact ⟨_, by rw [Sale.cancel, if_pos (by simp [Sale.can_cancel, hs])]⟩
  · intro s a e hs
    simp [Sale.cancel, Sale.can_cancel, hs]

theorem cancel_guard_behavior_witness :
    Sale.cancel false false false exConfirmedSale
      = .error DomainError.invalidTransition
    ∧ (∃ s2, Sale.cancel false false true exConfirmedSale = .ok s2)
    ∧ (∃ s2, Sale.cancel true false false exConfirmedSale = .ok s2)
    ∧ Sale.cancel true true false exReturnedSale
      = .error DomainError.invalidTransition :=
  ⟨cancel_guard_behavior.1 exConfirmedSale rfl,
    cancel_guard_behavior.2.1 exConfirmedSale false false,
    cancel_guard_behavior.2.2.1 exConfirmedSale false rfl,
    cancel_guard_behavior.2.2.2 exReturnedSale true true rfl⟩

/-- C8: order fails with a domain error on a sale without line items (and
can_order is false there); a successful order implies the sale was in the
INITIAL or QUOTE status, and afterwards the sale can no longer be
ordered. -/
theorem order_guard_behavior :
    (∀ s : Sale, s.items = [] →
      Sale.order s = .error DomainError.sellError ∧ Sale.can_order s = false)
    ∧ (∀ s s2 : Sale, Sale.order s = .ok s2 →
      (s.status = SaleStatus.initial ∨ s.status = SaleStatus.quote)
        ∧ Sale.can_order s2 = false) := by
  constructor
  · intro s hs
    constructor
    · simp [Sale.order, hs]
    · simp [Sale.can_order, hs]
  · intro s s2 h
    rw [Sale.order] at h
    split_ifs at h with h1 h2 h3 <;> simp_all [Sale.can_order]
    subst h
    intro _ hcontra
    rcases hcontra with hc | hc <;> simp at hc

theorem order_guard_behavior_witness :
    (Sale.order exEmptySale = .error DomainError.sellError
      ∧ Sale.can_order exEmptySale = false)
    ∧ ((exQuoteSale.status = SaleStatus.initial
        ∨ exQuoteSale.status = SaleStatus.quote)
      ∧ Sale.can_order { exQuoteSale with status := SaleStatus.ordered }
        = false) :=
  ⟨order_guard_behavior.1 exEmptySale rfl,
    order_guard_behavior.2 exQuoteSale
      { exQuoteSale with status := SaleStatus.ordered } rfl⟩

/-- C9: once a confirmed sale has every payment of its payment group
settled, set_paid raises the paid flag without changing the status, and
set_not_paid afterwards lowers the paid flag, again without changing the
status. -/
theorem paid_promotion_behavior (s : Sale)
    (hs : s.status = SaleStatus.confirmed) (hp : s.payments.all id = true) :
    (Sale.set_paid s).paid = true
    ∧ (Sale.set_paid s).status = s.status
    ∧ (Sale.set_not_paid (Sale.set_paid s)).paid = false
    ∧ (Sale.set_not_paid (Sale.set_paid s)).status = s.status := by
  simp [Sale.set_paid, Sale.set_not_paid, hs, hp]

theorem paid_promotion_behavior_witness :
    (Sale.set_paid exSettledSale).paid = true
    ∧ (Sale.set_paid exSettledSale).status = exSettledSale.status
    ∧ (Sale.set_not_paid (Sale.set_paid exSettledSale)).paid = false
    ∧ (Sale.set_not_paid (Sale.set_paid exSettledSale)).status
      = exSettledSale.status :=
  paid_promotion_behavior exSettledSale rfl rfl

theorem zipWith_map_same {α β γ δ : Type} (f : β → γ → δ) (g : α → β) (h : α → γ) :
    ∀ l : List α, List.zipWith f (l.map g) (l.map h) = l.map fun a => f (g a) (h a)
  | [] => rfl
  | x :: xs => by
    simp only [List.map_cons, List.zipWith_cons_cons]
    rw [zipWith_map_same f g h xs]

theorem all_zip_map_same {α β γ : Type} (g : α → β) (h : α → γ)
    (p : β × γ → Bool) :
    ∀ l : List α,
      ((l.map g).zip (l.map h)).all p = l.all fun a => p (g a, h a)
  | [] => rfl
  | x :: xs => by
    simp only [List.map_cons, List.zip_cons_cons, List.all_cons]
    rw [all_zip_map_same g h p xs]

theorem all_zipWith_map_same {α β γ δ : Type} (f : β → γ → δ) (g : α → β)
    (h : α → γ) (p : δ → Bool) :
    ∀ l : List α,
      (List.zipWith f (l.map g) (l.map h)).all p
        = l.all fun a => p (f (g a) (h a))
  | [] => rfl
  | x :: xs => by
    simp only [List.map_cons, List.zipWith_cons_cons, List.all_cons]
    rw [all_zipWith_map_same f g h p xs]

theorem sellItems_fst :
    ∀ (its : List SaleItem) (sts : List Storable),
      sts.length = its.length →
      (∀ it ∈ its, it.wo_item = none) →
      (Sale.sellItems its sts).1
        = its.map fun it => { it with quantity_decreased := it.quantity } := by
  intro its
  induction its with
  | nil =>
    intro sts h _
    cases sts with
    | nil => rfl
    | cons st sts => simp at h
  | cons it its ih =>
    intro sts h hw
    cases sts with
    | nil => simp at h
    | cons st sts =>
      have hwit : it.wo_item = none := hw it (List.mem_cons_self it its)
      simp only [Sale.sellItems, List.map_cons, List.cons.injEq]
      constructor
      · simp [SaleItem.sell, hwit]
      · exact ih sts (by simpa using h) fun x hxm => hw x (List.mem_cons_of_mem it hxm)

theorem sellItems_restore :
    ∀ (its : List SaleItem) (sts : List Storable),
      sts.length = its.length →
      (∀ it ∈ its, it.quantity_decreased = 0 ∧ 0 ≤ it.quantity
        ∧ it.wo_item = none) →
      List.zipWith (fun k st => Storable.increase_stock k st)
        (its.map SaleItem.quantity) (Sale.sellItems its sts).2 = sts := by
  intro its
  induction its with
  | nil =>
    intro sts h _
    cases sts with
    | nil => rfl
    | cons st sts => simp at h
  | cons it its ih =>
    intro sts h hh
    cases sts with
    | nil => simp at h
    | cons st sts =>
      obtain ⟨hd, hq, hw⟩ := hh it (List.mem_cons_self it its)
      obtain ⟨b⟩ := st
      simp only [Sale.sellItems, List.map_cons, List.zipWith_cons_cons,
        List.cons.injEq]
      constructor
      · simp only [SaleItem.sell, SaleItem.already_decreased, hw, hd, sub_zero]
        rcases lt_or_eq_of_le hq with h1 | h1
        · rw [if_pos h1]
          simp [Storable.decrease_stock, Storable.increase_stock]
        · rw [if_neg (by rw [← h1]; exact lt_irrefl 0)]
          simp [Storable.increase_stock, ← h1]
      · exact ih sts (by simpa using h)
          fun x hxm => hh x (List.mem_cons_of_mem it hxm)

/-- C3: confirming a sale whose items have fresh counters and then
performing a total return (all items, full quantity) promotes the sale to
RETURNED, restores the stock balance of every item storable to exactly its
value before confirmation, and leaves a net fiscal-ledger position of zero
in each tax component. -/
theorem confirm_total_return_roundtrip (s0 s1 s2 : Sale) (t : FiscalBookEntry)
    (hlen : s0.storables.length = s0.items.length)
    (hx : ∀ it ∈ s0.items, it.quantity_decreased = 0
      ∧ it.returned_quantity = 0 ∧ 0 < it.quantity ∧ it.wo_item = none)
    (hrev : s0.reversal_entries = [])
    (hc : Sale.confirm t s0 = .ok s1)
    (hr : Sale.return_ (s1.items.map SaleItem.quantity) s1 = .ok s2) :
    s2.status = SaleStatus.returned
    ∧ s2.storables = s0.storables
    ∧ s2.net_icms = 0 ∧ s2.net_iss = 0 ∧ s2.net_ipi = 0 := by
  have hne : s0.items ≠ [] := by
    intro hnil
    rw [Sale.confirm, if_pos (by simp [hnil])] at hc
    exact absurd hc (by simp)
  have hstat : s0.status = SaleStatus.ordered ∨ s0.status = SaleStatus.quote := by
    by_contra hcontra
    rw [Sale.confirm, if_neg (by simp [hne]), if_pos hcontra] at hc
    exact absurd hc (by simp)
  have hcl : s0.client_ok = true := by
    by_contra hcontra
    rw [Sale.confirm, if_neg (by simp [hne]), if_neg (not_not_intro hstat),
      if_pos (by simpa using hcontra)] at hc
    exact absurd hc (by simp)
  rw [Sale.confirm, if_neg (by simp [hne]), if_neg (not_not_intro hstat),
    if_neg (not_not_intro hcl), Except.ok.injEq] at hc
  subst hc
  have hwo : ∀ it ∈ s0.items, it.wo_item = none := fun it h => (hx it h).2.2.2
  have hfst := sellItems_fst s0.items s0.storables hlen hwo
  have hks : (Sale.sellItems s0.items s0.storables).1.map SaleItem.quantity
      = s0.items.map SaleItem.quantity := by
    rw [hfst, List.map_map]
    rfl
  simp only [Sale.return_] at hr
  rw [if_neg (by simp : ¬¬True)] at hr
  rw [if_neg (not_not_intro (by simp))] at hr
  have hall : (((Sale.sellItems s0.items s0.storables).1.map SaleItem.quantity).zip
      (Sale.sellItems s0.items s0.storables).1).all
      (fun p => decide (0 ≤ p.1 ∧ p.1 ≤ p.2.quantity - p.2.returned_quantity))
      = true := by
    rw [hks, hfst, all_zip_map_same, List.all_eq_true]
    intro a ha
    have h := hx a ha
    simp [h.2.1, le_of_lt h.2.2.1]
  rw [if_neg (not_not_intro hall)] at hr
  have hfully : (List.zipWith
      (fun k it => { it with returned_quantity := it.returned_quantity + k })
      ((Sale.sellItems s0.items s0.storables).1.map SaleItem.quantity)
      (Sale.sellItems s0.items s0.storables).1).all
      (fun it => decide (it.returned_quantity = it.quantity)) = true := by
    rw [hks, hfst, all_zipWith_map_same, List.all_eq_true]
    intro a ha
    have h := hx a ha
    simp [h.2.1]
  have hS : (0 : ℚ) < (s0.items.map SaleItem.quantity).sum := by
    refine List.sum_pos _ ?_ ?_
    · intro x hxmem
      obtain ⟨a, ha, rfl⟩ := List.mem_map.mp hxmem
      exact (hx a ha).2.2.1
    · simpa using hne
  have hfrac : (s0.items.map SaleItem.quantity).sum
      / (s0.items.map SaleItem.quantity).sum = 1 := div_self (ne_of_gt hS)
  rw [Except.ok.injEq] at hr
  subst hr
  refine ⟨?_, ?_, ?_, ?_, ?_⟩
  · simp [hfully]
  · simp only [hks]
    exact sellItems_restore s0.items s0.storables hlen
      fun it h => ⟨(hx it h).1, le_of_lt (hx it h).2.2.1, (hx it h).2.2.2⟩
  · simp only [Sale.net_icms, Sale.reversed_icms, Sale.total_quantity, hrev,
      FiscalBookEntry.scale, hks]
    simp [hfrac]
  · simp only [Sale.net_iss, Sale.reversed_iss, Sale.total_quantity, hrev,
      FiscalBookEntry.scale, hks]
    simp [hfrac]
  · simp only [Sale.net_ipi, Sale.reversed_ipi, Sale.total_quantity, hrev,
      FiscalBookEntry.scale, hks]
    simp [hfrac]

theorem confirm_total_return_roundtrip_witness :
    s2c3.status = SaleStatus.returned
    ∧ s2c3.storables = s0c3.storables
    ∧ s2c3.net_icms = 0 ∧ s2c3.net_iss = 0 ∧ s2c3.net_ipi = 0 := by
  have hc : Sale.confirm ⟨6, 3, 1⟩ s0c3 = .ok s1c3 := by
    norm_num [Sale.confirm, Sale.sellItems, SaleItem.sell,
      SaleItem.already_decreased, Storable.decrease_stock, s0c3, s1c3]
  have hr : Sale.return_ (s1c3.items.map SaleItem.quantity) s1c3 = .ok s2c3 := by
    norm_num [Sale.return_, Sale.total_quantity, FiscalBookEntry.scale,
      Storable.increase_stock, s1c3, s2c3]
  exact confirm_total_return_roundtrip s0c3 s1c3 s2c3 ⟨6, 3, 1⟩ rfl
    (by norm_num [s0c3]) rfl hc hr

/-- C4: on a confirmed single-item sale of quantity n, returning a
quantity k below n keeps the sale CONFIRMED, raises the stock balance by
exactly k, and reverses each fiscal-book tax component (ICMS, ISS, IPI) by
exactly the fraction k over n of its original value; returning the
remaining quantity afterwards promotes the sale to RETURNED. -/
theorem partial_return_prorates (n k b : ℚ) (t : FiscalBookEntry)
    (s1 s2 s3 : Sale)
    (hn : 0 < n) (hk0 : 0 ≤ k) (hkn : k < n)
    (hc : Sale.confirm t
      { status := SaleStatus.ordered, items := [{ quantity := n }],
        storables := [⟨b⟩] } = .ok s1)
    (hr1 : Sale.return_ [k] s1 = .ok s2)
    (hr2 : Sale.return_ [n - k] s2 = .ok s3) :
    s2.status = SaleStatus.confirmed
    ∧ s2.storables = [⟨b - n + k⟩]
    ∧ s2.reversed_icms = k / n * t.icms_value
    ∧ s2.reversed_iss = k / n * t.iss_value
    ∧ s2.reversed_ipi = k / n * t.ipi_value
    ∧ s3.status = SaleStatus.returned := by
  have e1 : Sale.confirm t
      { status := SaleStatus.ordered, items := [{ quantity := n }],
        storables := [⟨b⟩] }
      = .ok { status := SaleStatus.confirmed,
              items := [{ quantity := n, quantity_decreased := n }],
              storables := [⟨b - n⟩],
              fiscal_entry := some t } := by
    simp [Sale.confirm, Sale.sellItems, SaleItem.sell, SaleItem.already_decreased,
      Storable.decrease_stock, hn]
  rw [e1, Except.ok.injEq] at hc
  subst hc
  have hkle : k ≤ n := hkn.le
  have hkne : ¬(k = n) := hkn.ne
  have e2 : Sale.return_ [k]
      { status := SaleStatus.confirmed,
        items := [{ quantity := n, quantity_decreased := n }],
        storables := [⟨b - n⟩],
        fiscal_entry := some t }
      = .ok { status := SaleStatus.confirmed,
              items := [{ quantity := n, quantity_decreased := n,
                          returned_quantity := 0 + k }],
              storables := [⟨b - n + k⟩],
              fiscal_entry := some t,
              reversal_entries :=
                [⟨k / n * t.icms_value, k / n * t.iss_value,
                  k / n * t.ipi_value⟩] } := by
    simp [Sale.return_, Sale.total_quantity, FiscalBookEntry.scale,
      Storable.increase_stock, hk0, hkle, hkne]
  rw [e2, Except.ok.injEq] at hr1
  subst hr1
  have hfull : k + (n - k) = n := by ring
  have hnk0 : 0 ≤ n - k := by linarith
  have e3 : ∀ s4, Sale.return_ [n - k]
      { status := SaleStatus.confirmed,
        items := [{ quantity := n, quantity_decreased := n,
                    returned_quantity := 0 + k }],
        storables := [⟨b - n + k⟩],
        fiscal_entry := some t,
        reversal_entries :=
          [⟨k / n * t.icms_value, k / n * t.iss_value,
            k / n * t.ipi_value⟩] }
      = .ok s4 → s4.status = SaleStatus.returned := by
    intro s4 h4
    rw [Sale.return_, if_neg (by simp), if_neg (by simp),
      if_neg (by simp [hnk0])] at h4
    rw [Except.ok.injEq] at h4
    subst h4
    simp [hfull]
  refine ⟨rfl, rfl, ?_, ?_, ?_, e3 s3 hr2⟩
  all_goals
    simp [Sale.reversed_icms, Sale.reversed_iss, Sale.reversed_ipi]

theorem partial_return_prorates_witness :
    s2c4.status = SaleStatus.confirmed
    ∧ s2c4.storables = [⟨10 - 2 + 1⟩]
    ∧ s2c4.reversed_icms = 1 / 2 * (FiscalBookEntry.icms_value ⟨6, 3, 1⟩)
    ∧ s3c4.status = SaleStatus.returned := by
  have hc : Sale.confirm ⟨6, 3, 1⟩
      { status := SaleStatus.ordered, items := [{ quantity := 2 }],
        storables := [⟨(10 : ℚ)⟩] } = .ok s1c4 := by
    norm_num [Sale.confirm, Sale.sellItems, SaleItem.sell,
      SaleItem.already_decreased, Storable.decrease_stock, s1c4]
  have hr1 : Sale.return_ [1] s1c4 = .ok s2c4 := by
    norm_num [Sale.return_, Sale.total_quantity, FiscalBookEntry.scale,
      Storable.increase_stock, s1c4, s2c4]
  have hr2 : Sale.return_ [2 - 1] s2c4 = .ok s3c4 := by
    norm_num [Sale.return_, Sale.total_quantity, FiscalBookEntry.scale,
      Storable.increase_stock, s2c4, s3c4]
  have h := partial_return_prorates 2 1 10 ⟨6, 3, 1⟩ s1c4 s2c4 s3c4
    (by norm_num) (by norm_num) (by norm_num) hc hr1 hr2
  exact ⟨h.1, h.2.1, h.2.2.1, h.2.2.2.2.2⟩

theorem applyDiffToLast_cons (d : ℚ) (x : SaleItem) (l : List SaleItem)
    (h : l ≠ []) :
    applyDiffToLast d (x :: l) = x :: applyDiffToLast d l := by
  cases l with
  | nil => exact absurd rfl h
  | cons y ys => rfl

theorem applyDiffToLast_append (d : ℚ) (l : List SaleItem) (a : SaleItem) :
    applyDiffToLast d (l ++ [a])
      = l ++ [{ a with price := max (1 / 100) (a.price - d / a.quantity) }] := by
  induction l with
  | nil => rfl
  | cons x xs ih =>
    rw [List.cons_append, applyDiffToLast_cons d x (xs ++ [a]) (by simp),
      ih, List.cons_append]

theorem applyDiffToLast_price_floor (d : ℚ) :
    ∀ l : List SaleItem, (∀ x ∈ l, 1 / 100 ≤ x.price) →
      ∀ it ∈ applyDiffToLast d l, 1 / 100 ≤ it.price := by
  intro l
  induction l with
  | nil =>
    intro _ it h
    simp [applyDiffToLast] at h
  | cons x xs ih =>
    intro hall it hit
    cases xs with
    | nil =>
      simp only [applyDiffToLast, List.mem_singleton] at hit
      subst hit
      show (1 : ℚ) / 100 ≤ max (1 / 100) (x.price - d / x.quantity)
      exact le_max_left _ _
    | cons y ys =>
      rw [applyDiffToLast_cons d x (y :: ys) (by simp)] at hit
      rcases List.mem_cons.mp hit with rfl | h
      · exact hall _ (List.mem_cons_self _ _)
      · exact ih (fun z hz => hall z (List.mem_cons_of_mem x hz)) it h

theorem itemsSubtotal_append (l : List SaleItem) (a : SaleItem) :
    itemsSubtotal (l ++ [a]) = itemsSubtotal l + a.price * a.quantity := by
  simp [itemsSubtotal]

theorem subtotal_map_discount_split (pct : ℚ) (front : List SaleItem)
    (lastIt : SaleItem) :
    itemsSubtotal (front.map (SaleItem.set_discount pct))
      + (SaleItem.set_discount pct lastIt).price * lastIt.quantity
      = discountTarget pct (front ++ [lastIt])
        + discountDiff pct (front ++ [lastIt]) := by
  rw [discountDiff, List.map_append]
  simp only [List.map_cons, List.map_nil]
  rw [itemsSubtotal_append,
    show (SaleItem.set_discount pct lastIt).quantity = lastIt.quantity
      from rfl]
  ring

/-- C5: when the per-item quantized discounts leave a rounding residual
against the requested sale-level delta, set_items_discount moves the whole
residual onto the last item processed (every other item keeps its nominal
quantized share), so that the resulting subtotal equals the requested
target exactly whenever the corrected last price stays at or above the
minimum currency unit. -/
theorem set_items_discount_exact (pct : ℚ) (front : List SaleItem)
    (lastIt : SaleItem) (hq : lastIt.quantity ≠ 0)
    (hfloor : 1 / 100 ≤ (SaleItem.set_discount pct lastIt).price
      - discountDiff pct (front ++ [lastIt]) / lastIt.quantity) :
    itemsSubtotal (set_items_discount pct (front ++ [lastIt]))
      = discountTarget pct (front ++ [lastIt])
    ∧ set_items_discount pct (front ++ [lastIt])
      = front.map (SaleItem.set_discount pct)
        ++ [{ SaleItem.set_discount pct lastIt with
              price := (SaleItem.set_discount pct lastIt).price
                - discountDiff pct (front ++ [lastIt]) / lastIt.quantity }] := by
  have hsplit := subtotal_map_discount_split pct front lastIt
  by_cases hd : discountDiff pct (front ++ [lastIt]) = 0
  · rw [set_items_discount, if_pos hd]
    constructor
    · rw [hd, add_zero] at hsplit
      rw [List.map_append]
      simp only [List.map_cons, List.map_nil]
      rw [itemsSubtotal_append,
        show (SaleItem.set_discount pct lastIt).quantity = lastIt.quantity
          from rfl]
      exact hsplit
    · rw [List.map_append]
      simp only [List.map_cons, List.map_nil]
      rw [hd, zero_div, sub_zero]
  · rw [set_items_discount, if_neg hd, List.map_append]
    simp only [List.map_cons, List.map_nil]
    rw [applyDiffToLast_append,
      show (SaleItem.set_discount pct lastIt).quantity = lastIt.quantity
        from rfl,
      max_eq_right hfloor]
    constructor
    · rw [itemsSubtotal_append]
      dsimp only
      rw [sub_mul, div_mul_cancel₀ _ hq]
      linarith
    · rfl

/-- C6: after set_items_discount no item price is below the minimum
currency unit, and when the residual correction would push the last item
below that floor, the correction is clamped and the achieved subtotal
differs from the requested target by exactly the clamp shortfall. -/
theorem set_items_discount_floor (pct : ℚ) (items : List SaleItem) :
    (∀ it ∈ set_items_discount pct items, 1 / 100 ≤ it.price)
    ∧ ∀ (front : List SaleItem) (lastIt : SaleItem),
      items = front ++ [lastIt] → lastIt.quantity ≠ 0 →
      (SaleItem.set_discount pct lastIt).price
          - discountDiff pct items / lastIt.quantity < 1 / 100 →
      itemsSubtotal (set_items_discount pct items)
        = discountTarget pct items
          + (1 / 100 - ((SaleItem.set_discount pct lastIt).price
            - discountDiff pct items / lastIt.quantity)) * lastIt.quantity := by
  constructor
  · intro it hit
    rw [set_items_discount] at hit
    by_cases hd : discountDiff pct items = 0
    · rw [if_pos hd] at hit
      obtain ⟨a, _, rfl⟩ := List.mem_map.mp hit
      exact le_max_left _ _
    · rw [if_neg hd] at hit
      refine applyDiffToLast_price_floor _ _ ?_ it hit
      intro x hx
      obtain ⟨a, _, rfl⟩ := List.mem_map.mp hx
      exact le_max_left _ _
  · intro front lastIt hsp hq hclamp
    subst hsp
    have hsplit := subtotal_map_discount_split pct front lastIt
    have hple : 1 / 100 ≤ (SaleItem.set_discount pct lastIt).price :=
      le_max_left _ _
    have hdne : discountDiff pct (front ++ [lastIt]) ≠ 0 := by
      intro h0
      rw [h0, zero_div, sub_zero] at hclamp
      exact absurd hclamp (not_lt.mpr hple)
    rw [set_items_discount, if_neg hdne, List.map_append]
    simp only [List.map_cons, List.map_nil]
    rw [applyDiffToLast_append,
      show (SaleItem.set_discount pct lastIt).quantity = lastIt.quantity
        from rfl,
      max_eq_left hclamp.le]
    rw [itemsSubtotal_append]
    dsimp only
    have hmul : (1 / 100 - ((SaleItem.set_discount pct lastIt).price
        - discountDiff pct (front ++ [lastIt]) / lastIt.quantity))
          * lastIt.quantity
        = 1 / 100 * lastIt.quantity
          - (SaleItem.set_discount pct lastIt).price * lastIt.quantity
          + discountDiff pct (front ++ [lastIt]) / lastIt.quantity
            * lastIt.quantity := by
      ring
    rw [hmul, div_mul_cancel₀ _ hq]
    linarith

theorem quantize_eval (x : ℚ) (n : ℤ) (h1 : (n : ℚ) ≤ 100 * x)
    (h2 : 100 * x - n < 1 / 2) : quantize x = (n : ℚ) / 100 := by
  have hfl : ⌊100 * x⌋ = n := by
    rw [Int.floor_eq_iff]
    refine ⟨h1, ?_⟩
    push_cast
    linarith
  rw [quantize, roundHalfEven, hfl, if_pos h2]

theorem quantize_eval_up (x : ℚ) (n : ℤ) (h1 : 1 / 2 < 100 * x - n)
    (h2 : 100 * x < (n : ℚ) + 1) : quantize x = ((n : ℚ) + 1) / 100 := by
  have hfl : ⌊100 * x⌋ = n := by
    rw [Int.floor_eq_iff]
    constructor
    · linarith
    · push_cast
      linarith
  rw [quantize, roundHalfEven, hfl, if_neg (by linarith), if_pos h1]
  push_cast
  ring

theorem set_items_discount_exact_witness :
    exDiscB.quantity = 1
    ∧ itemsSubtotal (set_items_discount exPct [exDiscA, exDiscB])
      = discountTarget exPct [exDiscA, exDiscB]
    ∧ discountTarget exPct [exDiscA, exDiscB] = 100 := by
  have e1 : quantize ((10 : ℚ) * (1 - exPct / 100)) = ((990 : ℤ) : ℚ) / 100 :=
    quantize_eval _ _ (by norm_num [exPct]) (by norm_num [exPct])
  have e2 : quantize ((99 / 100 : ℚ) * (1 - exPct / 100))
      = ((98 : ℤ) : ℚ) / 100 :=
    quantize_eval _ _ (by norm_num [exPct]) (by norm_num [exPct])
  have e3 : quantize (itemsBaseSubtotal [exDiscA, exDiscB] * exPct / 100)
      = ((99 : ℤ) : ℚ) / 100 :=
    quantize_eval _ _
      (by norm_num [itemsBaseSubtotal, exDiscA, exDiscB, exPct])
      (by norm_num [itemsBaseSubtotal, exDiscA, exDiscB, exPct])
  have ht : discountTarget exPct [exDiscA, exDiscB] = 100 := by
    rw [discountTarget, e3]
    norm_num [itemsBaseSubtotal, exDiscA, exDiscB]
  have hA : (SaleItem.set_discount exPct exDiscA).price = 99 / 10 := by
    show max (1 / 100) (quantize (exDiscA.base_price * (1 - exPct / 100)))
      = 99 / 10
    rw [show exDiscA.base_price = (10 : ℚ) from rfl, e1,
      max_eq_right (by norm_num)]
    norm_num
  have hB : (SaleItem.set_discount exPct exDiscB).price = 49 / 50 := by
    show max (1 / 100) (quantize (exDiscB.base_price * (1 - exPct / 100)))
      = 49 / 50
    rw [show exDiscB.base_price = (99 / 100 : ℚ) from rfl, e2,
      max_eq_right (by norm_num)]
    norm_num
  have hD : discountDiff exPct [exDiscA, exDiscB] = -(1 / 50) := by
    rw [discountDiff, ht]
    have : itemsSubtotal ([exDiscA, exDiscB].map (SaleItem.set_discount exPct))
        = (SaleItem.set_discount exPct exDiscA).price * 10
          + (SaleItem.set_discount exPct exDiscB).price * 1 := by
      simp only [List.map_cons, List.map_nil, itemsSubtotal, List.sum_cons,
        List.sum_nil]
      rw [show (SaleItem.set_discount exPct exDiscA).quantity = (10 : ℚ)
          from rfl,
        show (SaleItem.set_discount exPct exDiscB).quantity = (1 : ℚ) from rfl]
      ring
    rw [this, hA, hB]
    norm_num
  have hfl : 1 / 100 ≤ (SaleItem.set_discount exPct exDiscB).price
      - discountDiff exPct [exDiscA, exDiscB] / exDiscB.quantity := by
    rw [hB, hD, show exDiscB.quantity = (1 : ℚ) from rfl]
    norm_num
  exact ⟨rfl,
    (set_items_discount_exact exPct [exDiscA] exDiscB one_ne_zero hfl).1, ht⟩

theorem set_items_discount_floor_witness :
    (∀ it ∈ set_items_discount exPct2 [exDiscA, exDiscC],
      1 / 100 ≤ it.price)
    ∧ exDiscC.quantity ≠ 0
    ∧ (SaleItem.set_discount exPct2 exDiscC).price
        - discountDiff exPct2 [exDiscA, exDiscC] / exDiscC.quantity < 1 / 100
    ∧ itemsSubtotal (set_items_discount exPct2 [exDiscA, exDiscC])
      = discountTarget exPct2 [exDiscA, exDiscC]
        + (1 / 100 - ((SaleItem.set_discount exPct2 exDiscC).price
          - discountDiff exPct2 [exDiscA, exDiscC] / exDiscC.quantity))
          * exDiscC.quantity := by
  have e1 : quantize ((10 : ℚ) * (1 - exPct2 / 100))
      = (((999 : ℤ) : ℚ) + 1) / 100 :=
    quantize_eval_up _ _ (by norm_num [exPct2]) (by norm_num [exPct2])
  have e2 : quantize ((2 / 100 : ℚ) * (1 - exPct2 / 100))
      = (((1 : ℤ) : ℚ) + 1) / 100 :=
    quantize_eval_up _ _ (by norm_num [exPct2]) (by norm_num [exPct2])
  have e3 : quantize (itemsBaseSubtotal [exDiscA, exDiscC] * exPct2 / 100)
      = ((2 : ℤ) : ℚ) / 100 :=
    quantize_eval _ _
      (by norm_num [itemsBaseSubtotal, exDiscA, exDiscC, exPct2])
      (by norm_num [itemsBaseSubtotal, exDiscA, exDiscC, exPct2])
  have ht : discountTarget exPct2 [exDiscA, exDiscC] = 100 := by
    rw [discountTarget, e3]
    norm_num [itemsBaseSubtotal, exDiscA, exDiscC]
  have hA : (SaleItem.set_discount exPct2 exDiscA).price = 10 := by
    show max (1 / 100) (quantize (exDiscA.base_price * (1 - exPct2 / 100)))
      = 10
    rw [show exDiscA.base_price = (10 : ℚ) from rfl, e1,
      max_eq_right (by norm_num)]
    norm_num
  have hC : (SaleItem.set_discount exPct2 exDiscC).price = 1 / 50 := by
    show max (1 / 100) (quantize (exDiscC.base_price * (1 - exPct2 / 100)))
      = 1 / 50
    rw [show exDiscC.base_price = (2 / 100 : ℚ) from rfl, e2,
      max_eq_right (by norm_num)]
    norm_num
  have hD : discountDiff exPct2 [exDiscA, exDiscC] = 1 / 50 := by
    rw [discountDiff, ht]
    have : itemsSubtotal ([exDiscA, exDiscC].map (SaleItem.set_discount exPct2))
        = (SaleItem.set_discount exPct2 exDiscA).price * 10
          + (SaleItem.set_discount exPct2 exDiscC).price * 1 := by
      simp only [List.map_cons, List.map_nil, itemsSubtotal, List.sum_cons,
        List.sum_nil]
      rw [show (SaleItem.set_discount exPct2 exDiscA).quantity = (10 : ℚ)
          from rfl,
        show (SaleItem.set_discount exPct2 exDiscC).quantity = (1 : ℚ)
          from rfl]
      ring
    rw [this, hA, hC]
    norm_num
  have hclamp : (SaleItem.set_discount exPct2 exDiscC).price
      - discountDiff exPct2 [exDiscA, exDiscC] / exDiscC.quantity
      < 1 / 100 := by
    rw [hC, hD, show exDiscC.quantity = (1 : ℚ) from rfl]
    norm_num
  refine ⟨(set_items_discount_floor exPct2 [exDiscA, exDiscC]).1,
    one_ne_zero, hclamp, ?_⟩
  exact (set_items_discount_floor exPct2 [exDiscA, exDiscC]).2
    [exDiscA] exDiscC rfl one_ne_zero hclamp

end Stoqlib
